import Mathlib

/-!
Verification development for the CyberTrap repository.

The frontend (`frontend/src/App.tsx`, `ChatPanel.tsx`, `IntelligencePanel.tsx`,
`ThoughtProcess.tsx`) is embedded directly from the source.  The backend
Extraction, Validation and Consensus Engine (`backend/main.py`,
`backend/validators.py`) is not part of the available sources, so it is
modelled from the specification, faithful to its words.
-/

/-- The four artifact kinds tracked per session (spec section 3, and the
`Intelligence` interface in `App.tsx`). -/
inductive FieldKind
  | upi
  | bank_account
  | ifsc
  | link
deriving DecidableEq

/-- Kinds of explainability-trace steps: `thought | action | tool_call |
validation` (spec section 3 and the `ThoughtStep` interface in `App.tsx`). -/
inductive StepKind
  | thought
  | action
  | tool_call
  | validation
deriving DecidableEq

/-- One step record of an explainability trace. -/
structure TraceEntry where
  kind : StepKind
  text : String
deriving DecidableEq

/-- The ordered confidence tiers of a field record (spec section 3). -/
inductive ConfidenceTier
  | NONE
  | BASE
  | PATTERN_CONFIRMED
  | EXTENDED_TURN
  | CONSENSUS
deriving DecidableEq

/-- Validator outcome (spec section 4.2). -/
inductive Outcome
  | ACCEPTED (normalized : String)
  | SOFT_FAIL (repaired : String) (reason : String)
  | REJECTED (reason : String)
deriving DecidableEq

/-- ASCII word character, the `\w` class of the UPI grammar. -/
def isWordChar (c : Char) : Bool :=
  c.isAlphanum || c = '_'

/-- Characters allowed in the local part of a UPI handle. -/
def upiLocalChar (c : Char) : Bool :=
  isWordChar c || c = '.' || c = '-'

/-- Split a character list at the first occurrence of `sep`; `none` when
`sep` does not occur. -/
def splitOnceAt (sep : Char) : List Char → Option (List Char × List Char)
  | [] => none
  | c :: rest =>
      if c = sep then some ([], rest)
      else
        match splitOnceAt sep rest with
        | none => none
        | some p => some (c :: p.1, p.2)

/-- Modelled from the spec: the UPI grammar of `backend/validators.py`
(missing from the sources), following section 6 of the specification:
local part of 2 to 256 word, dot or hyphen characters, one at-sign, then a
suffix of 2 to 64 word characters. -/
def upiGrammar (l : List Char) : Bool :=
  match splitOnceAt '@' l with
  | none => false
  | some p =>
      decide (2 ≤ p.1.length) && decide (p.1.length ≤ 256) && p.1.all upiLocalChar
        && decide (2 ≤ p.2.length) && decide (p.2.length ≤ 64) && p.2.all isWordChar

/-- Modelled from the spec: the bank-account grammar of
`backend/validators.py` (missing from the sources): a digit sequence of
length 9 to 18. -/
def bankGrammar (l : List Char) : Bool :=
  l.all Char.isDigit && decide (9 ≤ l.length) && decide (l.length ≤ 18)

/-- Modelled from the spec: the IFSC grammar of `backend/validators.py`
(missing from the sources): 4 uppercase letters, a zero, then 6
alphanumeric characters, fixed length 11. -/
def ifscGrammar (l : List Char) : Bool :=
  decide (l.length = 11) && (l.take 4).all Char.isUpper
    && decide (l.getD 4 'x' = '0') && (l.drop 5).all Char.isAlphanum

/-- `pre` is a leading segment of `l`. -/
def leadsWith : List Char → List Char → Bool
  | [], _ => true
  | _ :: _, [] => false
  | a :: as, b :: bs => a = b && leadsWith as bs

/-- Modelled from the spec: the link grammar of `backend/validators.py`
(missing from the sources): a URL with an explicit `http` or `https`
scheme, a non-empty remainder, and no whitespace. -/
def linkGrammar (l : List Char) : Bool :=
  (leadsWith "https://".data l && decide (8 < l.length)
      || leadsWith "http://".data l && decide (7 < l.length))
    && l.all (fun c => !c.isWhitespace)

/-- The structural grammar of one field kind. -/
def grammarOf (k : FieldKind) (l : List Char) : Bool :=
  match k with
  | .upi => upiGrammar l
  | .bank_account => bankGrammar l
  | .ifsc => ifscGrammar l
  | .link => linkGrammar l

/-- Modelled from the spec: the deterministic soft-fail repair of
`backend/validators.py` (missing from the sources).  Repairs only remove
characters already present: stray whitespace for every kind, and
additionally the internal space and hyphen separators of account
numbers. -/
def repairChars (k : FieldKind) (l : List Char) : List Char :=
  match k with
  | .bank_account => l.filter (fun c => !(c == ' ' || c == '-'))
  | _ => l.filter (fun c => !c.isWhitespace)

/-- Human-readable reason attached to a soft-fail repair. -/
def softFailReason (k : FieldKind) : String :=
  match k with
  | .bank_account => "stray separators removed from account number"
  | _ => "stray whitespace removed"

/-- Modelled from the spec: `validate(raw_value)` of
`backend/validators.py` (missing from the sources), section 4.2: accept a
value matching the grammar unchanged, soft-fail when the deterministic
repair passes the grammar, reject otherwise. -/
def validate (k : FieldKind) (raw : String) : Outcome :=
  if grammarOf k raw.data then Outcome.ACCEPTED raw
  else if grammarOf k (repairChars k raw.data) then
    Outcome.SOFT_FAIL (String.mk (repairChars k raw.data)) (softFailReason k)
  else Outcome.REJECTED "candidate does not match grammar and has no safe repair"

/-- The value carried by a validator outcome, if any. -/
def outcomeValue : Outcome → Option String
  | .ACCEPTED n => some n
  | .SOFT_FAIL n _ => some n
  | .REJECTED _ => none

/-- Whether the outcome was an exact grammar match with no soft-fail. -/
def outcomeExact : Outcome → Bool
  | .ACCEPTED _ => true
  | _ => false

/-- Modelled from the spec: the canonical form used for consensus
comparison (section 4.3 step 1): case-folded, whitespace-stripped, with
kind-specific separator stripping. -/
def canonical (k : FieldKind) (v : String) : String :=
  String.mk ((repairChars k v.data).map Char.toLower)

/-- Modelled from the spec: the `FieldRecord` of the Consensus Tracker
(section 3), tracking one artifact kind within a session.  The
`consensus` flag records a CONSENSUS escalation, `patternExact` the
PATTERN_CONFIRMED boost, and `commitTurn` the turn that committed the
value (used for the independent-turn requirement of consensus). -/
structure FieldRecord where
  value : Option String
  observations : List String
  consensus : Bool
  patternExact : Bool
  commitTurn : Nat
deriving DecidableEq

/-- The empty field record of a fresh session. -/
def FieldRecord.init : FieldRecord :=
  ⟨none, [], false, false, 0⟩

/-- Modelled from the spec: one session of the engine (section 3):
a stage in 1 to 4, a turn counter, and one field record per kind. -/
structure Session where
  stage : Nat
  turn_count : Nat
  fields : FieldKind → FieldRecord

/-- A fresh session at stage HOOK with no observations. -/
def Session.init : Session :=
  ⟨1, 0, fun _ => FieldRecord.init⟩

/-- Replace the record of one field kind. -/
def Session.setField (s : Session) (k : FieldKind) (r : FieldRecord) : Session :=
  { s with fields := fun x => if x = k then r else s.fields x }

/-- Modelled from the spec: the stage thresholds configuration of the
Stage Controller (section 4.1), an ordered sequence of 3 integers. -/
structure StageConfig where
  stage_turn_thresholds : List Nat

/-- The thresholds used as running example by the spec: stage 1 to 2 after
turn 2, 2 to 3 after turn 4, 3 to 4 after turn 6. -/
def defaultConfig : StageConfig :=
  ⟨[2, 4, 6]⟩

/-- Modelled from the spec: the Stage Controller transition rule
(section 4.1): the stage advances by exactly one step when the turn count
crosses the configured threshold for the current stage; EXTRACT is
terminal. -/
def advanceStage (cfg : StageConfig) (stage tc : Nat) : Nat :=
  if stage < 4 ∧ cfg.stage_turn_thresholds.getD (stage - 1) (tc + 1) ≤ tc then
    stage + 1
  else stage

/-- Modelled from the spec: the gate contract
`is_extraction_eligible(stage) = stage ∈ {PIVOT, EXTRACT}`
(section 4.1). -/
def isExtractionEligible (stage : Nat) : Bool :=
  decide (3 ≤ stage)

/-- Modelled from the spec: one Consensus Tracker step (section 4.3) for a
validated candidate with normalized value `n`: commit when the field is
absent; keep the committed value sticky on a canonical conflict, reporting
a `validation` trace entry; escalate to CONSENSUS when the same canonical
value is observed again on a different turn. -/
def consensusStep (tc : Nat) (k : FieldKind) (r : FieldRecord) (n : String)
    (exact : Bool) : FieldRecord × Option TraceEntry :=
  match r.value with
  | none =>
      ({ r with value := some n, patternExact := exact, commitTurn := tc }, none)
  | some v =>
      if canonical k n = canonical k v then
        if tc = r.commitTurn then (r, none)
        else ({ r with consensus := true }, none)
      else (r, some ⟨StepKind.validation, "conflicting value for committed field kept sticky"⟩)

/-- Modelled from the spec: the numeric confidence score of a field record
(sections 3 and 4.3 item 5): 0 when absent, 1 on consensus, otherwise BASE
0.50 plus the PATTERN_CONFIRMED boost 0.15 and the EXTENDED_TURN boost
0.10 once the turn count exceeds 4, saturating at 0.75. -/
def scoreOf (r : FieldRecord) (tc : Nat) : ℚ :=
  if r.consensus then 1
  else
    match r.value with
    | none => 0
    | some _ =>
        min (3 / 4)
          (1 / 2 + (if r.patternExact then 15 / 100 else 0)
            + (if 4 < tc then 1 / 10 else 0))

/-- The confidence tier label of a field record. -/
def tierOf (r : FieldRecord) (tc : Nat) : ConfidenceTier :=
  if r.consensus then ConfidenceTier.CONSENSUS
  else
    match r.value with
    | none => ConfidenceTier.NONE
    | some _ =>
        if r.patternExact ∧ 4 < tc then ConfidenceTier.EXTENDED_TURN
        else if r.patternExact then ConfidenceTier.PATTERN_CONFIRMED
        else if 4 < tc then ConfidenceTier.EXTENDED_TURN
        else ConfidenceTier.BASE

/-- Modelled from the spec: how one validator outcome updates one field
record (section 4.4): the canonicalized value of every accepted or
soft-failed outcome is appended to `observations` unconditionally, and the
Consensus Tracker step runs only when extraction is stage-eligible. -/
def applyField (elig : Bool) (tc : Nat) (k : FieldKind) (r : FieldRecord)
    (out : Outcome) : FieldRecord :=
  match outcomeValue out with
  | none => r
  | some n =>
      let r1 : FieldRecord := { r with observations := r.observations ++ [canonical k n] }
      if elig then (consensusStep tc k r1 n (outcomeExact out)).1 else r1

/-- Modelled from the spec: the trace entries produced for one candidate
(section 4.4): one `tool_call` entry per validator invocation and one
`validation` entry per soft-fail, reject or conflict. -/
def traceFor (elig : Bool) (tc : Nat) (k : FieldKind) (r : FieldRecord)
    (out : Outcome) : List TraceEntry :=
  let tool : TraceEntry := ⟨StepKind.tool_call, "field validator invoked"⟩
  match out with
  | .REJECTED reason => [tool, ⟨StepKind.validation, reason⟩]
  | .ACCEPTED n =>
      if elig then
        tool :: ((consensusStep tc k
          { r with observations := r.observations ++ [canonical k n] } n true).2).toList
      else [tool]
  | .SOFT_FAIL n reason =>
      if elig then
        tool :: (⟨StepKind.validation, reason⟩ : TraceEntry) ::
          ((consensusStep tc k
            { r with observations := r.observations ++ [canonical k n] } n false).2).toList
      else [tool, ⟨StepKind.validation, reason⟩]

/-- Process one candidate of a turn: validate it and update the field it
names, collecting its trace entries. -/
def applyCandidate (elig : Bool) (tc : Nat) (s : Session)
    (c : FieldKind × String) : Session × List TraceEntry :=
  let out := validate c.1 c.2
  (s.setField c.1 (applyField elig tc c.1 (s.fields c.1) out),
    traceFor elig tc c.1 (s.fields c.1) out)

/-- Fold step running one candidate and accumulating its trace. -/
def turnStep (elig : Bool) (tc : Nat) (acc : Session × List TraceEntry)
    (c : FieldKind × String) : Session × List TraceEntry :=
  let p := applyCandidate elig tc acc.1 c
  (p.1, acc.2 ++ p.2)

/-- Run all candidates of one turn in order. -/
def runCandidates (elig : Bool) (tc : Nat) (s : Session)
    (cands : List (FieldKind × String)) : Session × List TraceEntry :=
  cands.foldl (turnStep elig tc) (s, [])

/-- Modelled from the spec: the per-turn intelligence snapshot exposed to
the transport layer (section 6): the four field values, the aggregate
confidence (maximum score over the fields), and the stage. -/
structure Snapshot where
  upi : Option String
  bank_account : Option String
  ifsc : Option String
  link : Option String
  confidence : ℚ
  stage : Nat
deriving DecidableEq

/-- Assemble the snapshot of a session. -/
def mkSnapshot (s : Session) : Snapshot :=
  { upi := (s.fields FieldKind.upi).value
    bank_account := (s.fields FieldKind.bank_account).value
    ifsc := (s.fields FieldKind.ifsc).value
    link := (s.fields FieldKind.link).value
    confidence :=
      max (max (scoreOf (s.fields FieldKind.upi) s.turn_count)
            (scoreOf (s.fields FieldKind.bank_account) s.turn_count))
        (max (scoreOf (s.fields FieldKind.ifsc) s.turn_count)
          (scoreOf (s.fields FieldKind.link) s.turn_count))
    stage := s.stage }

/-- Modelled from the spec: the Extraction Orchestrator entry point
`process_turn(session_id, candidates)` (section 4.4) for one loaded
session: increment the turn count, possibly advance the stage, run every
candidate through its validator, update the Consensus Tracker when
stage-eligible, and return the updated session, the snapshot and the
explainability trace (with an `action` entry for a stage transition). -/
def processTurn (cfg : StageConfig) (s : Session)
    (cands : List (FieldKind × String)) : Session × Snapshot × List TraceEntry :=
  let tc := s.turn_count + 1
  let newStage := advanceStage cfg s.stage tc
  let s1 : Session := ⟨newStage, tc, s.fields⟩
  let r := runCandidates (isExtractionEligible newStage) tc s1 cands
  let stageTrace : List TraceEntry :=
    if newStage = s.stage then [] else [⟨StepKind.action, "stage advanced"⟩]
  (r.1, mkSnapshot r.1, stageTrace ++ r.2)

/-- Modelled from the spec: the Session Store (section 2), a mapping from
session identifier to session state. -/
def SessionStore : Type :=
  String → Option Session

/-- Modelled from the spec: the session reset operation (section 6): it
deletes all state associated with the given identifier and is a no-op when
the session does not exist. -/
def resetSession (store : SessionStore) (sid : String) : SessionStore :=
  fun x => if x = sid then none else store x

/-- The JavaScript truthiness of a nullable string: `null` and the empty
string are falsy. -/
def jsTruthy (x : Option String) : Bool :=
  match x with
  | none => false
  | some s => decide (s ≠ "")

/-- The JavaScript `a || b` on nullable strings, as used by the
intelligence merge in `App.tsx`. -/
def jsOr (x y : Option String) : Option String :=
  if jsTruthy x then x else y

/-- The JavaScript string trim: leading and trailing whitespace
removed. -/
def jsTrim (s : String) : String :=
  String.mk (((s.data.dropWhile Char.isWhitespace).reverse.dropWhile
    Char.isWhitespace).reverse)

/-- The `Intelligence` interface of `App.tsx`: exactly the four nullable
fields `upi`, `bank_account`, `ifsc`, `link`. -/
structure Intelligence where
  upi : Option String
  bank_account : Option String
  ifsc : Option String
  link : Option String
deriving DecidableEq

/-- Look up one field of an `Intelligence` record by kind. -/
def intelGet (i : Intelligence) : FieldKind → Option String
  | .upi => i.upi
  | .bank_account => i.bank_account
  | .ifsc => i.ifsc
  | .link => i.link

/-- Message roles of the chat (`App.tsx`). -/
inductive Role
  | scammer
  | shanthi
deriving DecidableEq

/-- One chat message (`App.tsx`). -/
structure Message where
  role : Role
  content : String
deriving DecidableEq

/-- One thought-process step of the response (`App.tsx`). -/
structure ThoughtStep where
  type : StepKind
  content : String
deriving DecidableEq

/-- The `EngageResponse` interface of `App.tsx` (lines 25 to 38). -/
structure EngageResponse where
  classification : String
  confidence : ℚ
  reply : String
  intelligence : Intelligence
  explanation : String
  current_stage : Nat
  detected_language : String
  thought_process : List ThoughtStep
  needs_clarification : Option String
  extraction_allowed : Bool

/-- The component state of the `App` component in `App.tsx`. -/
structure AppState where
  messages : List Message
  intelligence : Intelligence
  thoughts : List ThoughtStep
  confidence : ℚ
  currentStage : Nat
  detectedLanguage : String
  isLoading : Bool

/-- The initial component state of `App.tsx`: empty chat, all-null
intelligence, no thoughts, confidence 0, stage 1, english, idle. -/
def initialAppState : AppState :=
  ⟨[], ⟨none, none, none, none⟩, [], 0, 1, "english", false⟩

/-- The intelligence merge of `sendMessage` (`App.tsx` lines 100 to 105):
each incoming field is kept when truthy, otherwise the previous value is
kept. -/
def mergeIntelligence (data prev : Intelligence) : Intelligence :=
  { upi := jsOr data.upi prev.upi
    bank_account := jsOr data.bank_account prev.bank_account
    ifsc := jsOr data.ifsc prev.ifsc
    link := jsOr data.link prev.link }

/-- The fallback reply shown when the API call fails (`App.tsx`). -/
def fallbackReply : String :=
  "Aiyyo beta, my internet connection is very slow. Can you repeat what you said?"

/-- The fallback thought shown when the API call fails (`App.tsx`). -/
def fallbackThought : ThoughtStep :=
  ⟨StepKind.thought, "API connection failed - using fallback response"⟩

/-- The `sendMessage` handler of `App.tsx`, as a state transformer.  The
network interaction is abstracted by `resp`: `some data` is a successful
parsed response, `none` any failure (network error, non-ok status).  The
returned boolean records whether a request was issued. -/
def sendMessage (st : AppState) (scammerMessage : String)
    (resp : Option EngageResponse) : AppState × Bool :=
  if jsTrim scammerMessage = "" ∨ st.isLoading = true then (st, false)
  else
    let newMessages := st.messages ++ [⟨Role.scammer, scammerMessage⟩]
    match resp with
    | some data =>
        ({ messages := newMessages ++ [⟨Role.shanthi, data.reply⟩]
           intelligence := mergeIntelligence data.intelligence st.intelligence
           thoughts := data.thought_process
           confidence := data.confidence
           currentStage := data.current_stage
           detectedLanguage := data.detected_language
           isLoading := false }, true)
    | none =>
        ({ messages := newMessages ++ [⟨Role.shanthi, fallbackReply⟩]
           intelligence := st.intelligence
           thoughts := [fallbackThought]
           confidence := st.confidence
           currentStage := st.currentStage
           detectedLanguage := st.detectedLanguage
           isLoading := false }, true)

/-- The local-state part of `resetConversation` in `App.tsx` (lines 140 to
144): empty messages, all-null intelligence, empty thoughts, confidence 0,
stage 1. -/
def resetConversation (st : AppState) : AppState :=
  { st with
    messages := []
    intelligence := ⟨none, none, none, none⟩
    thoughts := []
    confidence := 0
    currentStage := 1 }

/-- Whether the `handleSubmit` guard of `ChatPanel.tsx` lets a submission
through: the trimmed input must be non-empty and no request in flight. -/
def handleSubmitSends (input : String) (isLoading : Bool) : Bool :=
  decide (jsTrim input ≠ "") && !isLoading

lemma setField_fields (s : Session) (k : FieldKind) (r : FieldRecord) (x : FieldKind) :
    ((s.setField k r).fields x) = if x = k then r else s.fields x := rfl

lemma consensusStep_none (tc : Nat) (k : FieldKind) (r : FieldRecord) (n : String)
    (e : Bool) (h : r.value = none) :
    consensusStep tc k r n e
      = ({ r with value := some n, patternExact := e, commitTurn := tc }, none) := by
  unfold consensusStep
  rw [h]

lemma consensusStep_some (tc : Nat) (k : FieldKind) (r : FieldRecord) (n : String)
    (e : Bool) (v : String) (h : r.value = some v) :
    consensusStep tc k r n e
      = if canonical k n = canonical k v then
          if tc = r.commitTurn then (r, none)
          else ({ r with consensus := true }, none)
        else (r, some ⟨StepKind.validation,
          "conflicting value for committed field kept sticky"⟩) := by
  unfold consensusStep
  rw [h]

lemma consensusStep_obs (tc : Nat) (k : FieldKind) (r : FieldRecord) (n : String)
    (e : Bool) : ((consensusStep tc k r n e).1).observations = r.observations := by
  cases hv : r.value with
  | none => rw [consensusStep_none tc k r n e hv]
  | some v =>
      rw [consensusStep_some tc k r n e v hv]
      split_ifs <;> rfl

lemma consensusStep_keeps_value (tc : Nat) (k : FieldKind) (r : FieldRecord)
    (n : String) (e : Bool) (v : String) (h : r.value = some v) :
    ((consensusStep tc k r n e).1).value = some v := by
  rw [consensusStep_some tc k r n e v h]
  split_ifs <;> exact h

lemma consensusStep_keeps_consensus (tc : Nat) (k : FieldKind) (r : FieldRecord)
    (n : String) (e : Bool) (v : String) (h : r.value = some v)
    (hc : r.consensus = true) : ((consensusStep tc k r n e).1).consensus = true := by
  rw [consensusStep_some tc k r n e v h]
  split_ifs <;> first | exact hc | rfl

lemma applyField_pres (Q : FieldRecord → Prop) (elig : Bool) (tc : Nat)
    (hObs : ∀ r v, Q r → Q { r with observations := r.observations ++ [v] })
    (hCS : elig = true → ∀ (k : FieldKind) (r : FieldRecord) (n : String) (e : Bool),
      Q r → Q (consensusStep tc k r n e).1)
    (k : FieldKind) (r : FieldRecord) (out : Outcome) (hQ : Q r) :
    Q (applyField elig tc k r out) := by
  unfold applyField
  cases hv : outcomeValue out with
  | none => exact hQ
  | some n =>
      cases elig with
      | false => exact hObs r (canonical k n) hQ
      | true => exact hCS rfl k _ n (outcomeExact out) (hObs r (canonical k n) hQ)

lemma applyCandidate_fields (elig : Bool) (tc : Nat) (s : Session)
    (c : FieldKind × String) (k : FieldKind) :
    ((applyCandidate elig tc s c).1).fields k
      = if k = c.1 then applyField elig tc c.1 (s.fields c.1) (validate c.1 c.2)
        else s.fields k := rfl

lemma turnStep_fst (elig : Bool) (tc : Nat) (acc : Session × List TraceEntry)
    (c : FieldKind × String) :
    (turnStep elig tc acc c).1 = (applyCandidate elig tc acc.1 c).1 := rfl

lemma foldl_turnStep_pres (Q : FieldRecord → Prop) (elig : Bool) (tc : Nat)
    (hObs : ∀ r v, Q r → Q { r with observations := r.observations ++ [v] })
    (hCS : elig = true → ∀ (k : FieldKind) (r : FieldRecord) (n : String) (e : Bool),
      Q r → Q (consensusStep tc k r n e).1) :
    ∀ (cands : List (FieldKind × String)) (acc : Session × List TraceEntry)
      (k : FieldKind), Q (acc.1.fields k) →
      Q (((cands.foldl (turnStep elig tc) acc).1).fields k) := by
  intro cands
  induction cands with
  | nil => intro acc k h; exact h
  | cons c rest ih =>
      intro acc k h
      rw [List.foldl_cons]
      apply ih
      rw [turnStep_fst, applyCandidate_fields]
      by_cases hk : k = c.1
      · rw [if_pos hk]
        subst hk
        exact applyField_pres Q elig tc hObs hCS c.1 (acc.1.fields c.1) _ h
      · rw [if_neg hk]
        exact h

lemma applyCandidate_stage (elig : Bool) (tc : Nat) (s : Session)
    (c : FieldKind × String) : ((applyCandidate elig tc s c).1).stage = s.stage := rfl

lemma applyCandidate_turns (elig : Bool) (tc : Nat) (s : Session)
    (c : FieldKind × String) :
    ((applyCandidate elig tc s c).1).turn_count = s.turn_count := rfl

lemma foldl_turnStep_stage (elig : Bool) (tc : Nat) :
    ∀ (cands : List (FieldKind × String)) (acc : Session × List TraceEntry),
      ((cands.foldl (turnStep elig tc) acc).1).stage = acc.1.stage := by
  intro cands
  induction cands with
  | nil => intro acc; rfl
  | cons c rest ih =>
      intro acc
      rw [List.foldl_cons, ih]
      rfl

lemma foldl_turnStep_turns (elig : Bool) (tc : Nat) :
    ∀ (cands : List (FieldKind × String)) (acc : Session × List TraceEntry),
      ((cands.foldl (turnStep elig tc) acc).1).turn_count = acc.1.turn_count := by
  intro cands
  induction cands with
  | nil => intro acc; rfl
  | cons c rest ih =>
      intro acc
      rw [List.foldl_cons, ih]
      rfl

lemma processTurn_session (cfg : StageConfig) (s : Session)
    (cands : List (FieldKind × String)) :
    (processTurn cfg s cands).1
      = (runCandidates (isExtractionEligible (advanceStage cfg s.stage (s.turn_count + 1)))
          (s.turn_count + 1)
          ⟨advanceStage cfg s.stage (s.turn_count + 1), s.turn_count + 1, s.fields⟩
          cands).1 := rfl

lemma processTurn_snap (cfg : StageConfig) (s : Session)
    (cands : List (FieldKind × String)) :
    (processTurn cfg s cands).2.1 = mkSnapshot (processTurn cfg s cands).1 := rfl

lemma processTurn_stage (cfg : StageConfig) (s : Session)
    (cands : List (FieldKind × String)) :
    ((processTurn cfg s cands).1).stage
      = advanceStage cfg s.stage (s.turn_count + 1) := by
  rw [processTurn_session]
  exact foldl_turnStep_stage _ _ cands _

lemma processTurn_turns (cfg : StageConfig) (s : Session)
    (cands : List (FieldKind × String)) :
    ((processTurn cfg s cands).1).turn_count = s.turn_count + 1 := by
  rw [processTurn_session]
  exact foldl_turnStep_turns _ _ cands _

lemma processTurn_fields_pres (Q : FieldRecord → Prop) (cfg : StageConfig)
    (s : Session) (cands : List (FieldKind × String)) (k : FieldKind)
    (hObs : ∀ r v, Q r → Q { r with observations := r.observations ++ [v] })
    (hCS : ∀ (tc : Nat) (k : FieldKind) (r : FieldRecord) (n : String) (e : Bool),
      Q r → Q (consensusStep tc k r n e).1)
    (h : Q (s.fields k)) : Q (((processTurn cfg s cands).1).fields k) := by
  rw [processTurn_session]
  exact foldl_turnStep_pres Q _ _ hObs (fun _ => hCS _) cands _ k h

lemma processTurn_fields_pres_inelig (Q : FieldRecord → Prop) (cfg : StageConfig)
    (s : Session) (cands : List (FieldKind × String)) (k : FieldKind)
    (hElig : isExtractionEligible (advanceStage cfg s.stage (s.turn_count + 1)) = false)
    (hObs : ∀ r v, Q r → Q { r with observations := r.observations ++ [v] })
    (h : Q (s.fields k)) : Q (((processTurn cfg s cands).1).fields k) := by
  rw [processTurn_session]
  refine foldl_turnStep_pres Q _ _ hObs ?_ cands _ k h
  intro he
  rw [he] at hElig
  exact absurd hElig (by decide)

lemma scoreOf_nonneg (r : FieldRecord) (tc : Nat) : 0 ≤ scoreOf r tc := by
  unfold scoreOf
  split
  · norm_num
  · split
    · norm_num
    · refine le_min (by norm_num) ?_
      split_ifs <;> norm_num

lemma scoreOf_le_one (r : FieldRecord) (tc : Nat) : scoreOf r tc ≤ 1 := by
  unfold scoreOf
  split
  · norm_num
  · split
    · norm_num
    · exact le_trans (min_le_left _ _) (by norm_num)

lemma scoreOf_consensus (r : FieldRecord) (tc : Nat) (h : r.consensus = true) :
    scoreOf r tc = 1 := by
  unfold scoreOf
  rw [if_pos h]

lemma scoreOf_cap (r : FieldRecord) (tc : Nat) (h : r.consensus = false) :
    scoreOf r tc ≤ 3 / 4 := by
  unfold scoreOf
  rw [if_neg (by simp [h])]
  split
  · norm_num
  · exact min_le_left _ _

lemma scoreOf_none (r : FieldRecord) (tc : Nat) (hv : r.value = none)
    (hc : r.consensus = false) : scoreOf r tc = 0 := by
  unfold scoreOf
  rw [if_neg (by simp [hc]), hv]

lemma tierOf_of_consensus (r : FieldRecord) (tc : Nat) (h : r.consensus = true) :
    tierOf r tc = ConfidenceTier.CONSENSUS := by
  unfold tierOf
  rw [if_pos h]

lemma consensus_of_tierOf (r : FieldRecord) (tc : Nat)
    (h : tierOf r tc = ConfidenceTier.CONSENSUS) : r.consensus = true := by
  by_contra hc
  have hc' : r.consensus = false := by
    revert hc
    cases r.consensus <;> simp
  unfold tierOf at h
  rw [if_neg (by simp [hc'])] at h
  cases hv : r.value with
  | none => rw [hv] at h; exact ConfidenceTier.noConfusion h
  | some v =>
      rw [hv] at h
      split_ifs at h

lemma tierOf_none (r : FieldRecord) (tc : Nat) (hv : r.value = none)
    (hc : r.consensus = false) : tierOf r tc = ConfidenceTier.NONE := by
  unfold tierOf
  rw [if_neg (by simp [hc]), hv]

lemma score_le_confidence (s : Session) (k : FieldKind) :
    scoreOf (s.fields k) s.turn_count ≤ (mkSnapshot s).confidence := by
  cases k
  · exact le_trans (le_max_left _ _) (le_max_left _ _)
  · exact le_trans (le_max_right _ _) (le_max_left _ _)
  · exact le_trans (le_max_left _ _) (le_max_right _ _)
  · exact le_trans (le_max_right _ _) (le_max_right _ _)

lemma confidence_le_one (s : Session) : (mkSnapshot s).confidence ≤ 1 :=
  max_le (max_le (scoreOf_le_one _ _) (scoreOf_le_one _ _))
    (max_le (scoreOf_le_one _ _) (scoreOf_le_one _ _))

lemma confidence_nonneg (s : Session) : 0 ≤ (mkSnapshot s).confidence :=
  le_trans (scoreOf_nonneg _ _) (score_le_confidence s FieldKind.upi)

lemma advanceStage_ge (cfg : StageConfig) (stage tc : Nat) :
    stage ≤ advanceStage cfg stage tc := by
  unfold advanceStage
  split <;> omega

lemma advanceStage_le_four (cfg : StageConfig) (stage tc : Nat) (h : stage ≤ 4) :
    advanceStage cfg stage tc ≤ 4 := by
  unfold advanceStage
  split
  · omega
  · exact h

lemma advanceStage_ge_one (cfg : StageConfig) (stage tc : Nat) (h : 1 ≤ stage) :
    1 ≤ advanceStage cfg stage tc :=
  le_trans h (advanceStage_ge cfg stage tc)

lemma traceFor_ne_nil (elig : Bool) (tc : Nat) (k : FieldKind) (r : FieldRecord)
    (out : Outcome) : traceFor elig tc k r out ≠ [] := by
  unfold traceFor
  cases out <;> split_ifs <;> simp

lemma foldl_turnStep_trace_len (elig : Bool) (tc : Nat) :
    ∀ (cands : List (FieldKind × String)) (acc : Session × List TraceEntry),
      acc.2.length + cands.length ≤ ((cands.foldl (turnStep elig tc) acc).2).length := by
  intro cands
  induction cands with
  | nil => intro acc; simp
  | cons c rest ih =>
      intro acc
      rw [List.foldl_cons]
      have h1 := ih (turnStep elig tc acc c)
      have h2 : 0 < (applyCandidate elig tc acc.1 c).2.length :=
        List.length_pos.mpr (traceFor_ne_nil elig tc c.1 (acc.1.fields c.1)
          (validate c.1 c.2))
      have h3 : (turnStep elig tc acc c).2.length
          = acc.2.length + (applyCandidate elig tc acc.1 c).2.length := by
        show (acc.2 ++ (applyCandidate elig tc acc.1 c).2).length = _
        exact List.length_append _ _
      simp only [List.length_cons]
      omega

lemma processTurn_trace (cfg : StageConfig) (s : Session)
    (cands : List (FieldKind × String)) :
    (processTurn cfg s cands).2.2
      = (if advanceStage cfg s.stage (s.turn_count + 1) = s.stage
          then ([] : List TraceEntry)
          else [⟨StepKind.action, "stage advanced"⟩])
        ++ (runCandidates (isExtractionEligible (advanceStage cfg s.stage (s.turn_count + 1)))
            (s.turn_count + 1)
            ⟨advanceStage cfg s.stage (s.turn_count + 1), s.turn_count + 1, s.fields⟩
            cands).2 := rfl

lemma processTurn_trace_ne (cfg : StageConfig) (s : Session)
    (cands : List (FieldKind × String)) (h : cands ≠ []) :
    (processTurn cfg s cands).2.2 ≠ [] := by
  rw [processTurn_trace]
  intro hemp
  have h2 := (List.append_eq_nil.mp hemp).2
  have hlen := foldl_turnStep_trace_len
    (isExtractionEligible (advanceStage cfg s.stage (s.turn_count + 1)))
    (s.turn_count + 1) cands
    (⟨⟨advanceStage cfg s.stage (s.turn_count + 1), s.turn_count + 1, s.fields⟩,
      ([] : List TraceEntry)⟩)
  rw [show (runCandidates (isExtractionEligible (advanceStage cfg s.stage (s.turn_count + 1)))
        (s.turn_count + 1)
        ⟨advanceStage cfg s.stage (s.turn_count + 1), s.turn_count + 1, s.fields⟩ cands).2
      = ((cands.foldl (turnStep (isExtractionEligible (advanceStage cfg s.stage (s.turn_count + 1)))
          (s.turn_count + 1))
          (⟨⟨advanceStage cfg s.stage (s.turn_count + 1), s.turn_count + 1, s.fields⟩,
            ([] : List TraceEntry)⟩ : Session × List TraceEntry)).2) from rfl] at h2
  rw [h2] at hlen
  simp at hlen
  exact h hlen

lemma applyField_obs_adds (elig : Bool) (tc : Nat) (k : FieldKind) (r : FieldRecord)
    (out : Outcome) (n : String) (h : outcomeValue out = some n) :
    canonical k n ∈ (applyField elig tc k r out).observations := by
  unfold applyField
  rw [h]
  cases elig with
  | false => simp
  | true =>
      show canonical k n ∈ ((consensusStep tc k
        { r with observations := r.observations ++ [canonical k n] } n
        (outcomeExact out)).1).observations
      rw [consensusStep_obs]
      simp

lemma applyCandidate_obs_adds (elig : Bool) (tc : Nat) (s : Session) (k : FieldKind)
    (raw n : String) (h : outcomeValue (validate k raw) = some n) :
    canonical k n ∈ (((applyCandidate elig tc s (k, raw)).1).fields k).observations := by
  rw [applyCandidate_fields]
  rw [if_pos rfl]
  exact applyField_obs_adds elig tc k (s.fields k) (validate k raw) n h

lemma foldl_obs_mem (elig : Bool) (tc : Nat) :
    ∀ (cands : List (FieldKind × String)) (acc : Session × List TraceEntry)
      (k : FieldKind) (raw n : String), (k, raw) ∈ cands →
      outcomeValue (validate k raw) = some n →
      canonical k n ∈ (((cands.foldl (turnStep elig tc) acc).1).fields k).observations := by
  intro cands
  induction cands with
  | nil => intro acc k raw n hmem; exact absurd hmem (List.not_mem_nil _)
  | cons c rest ih =>
      intro acc k raw n hmem hval
      rw [List.foldl_cons]
      rcases List.mem_cons.mp hmem with hc | hrest
      · refine foldl_turnStep_pres (fun r => canonical k n ∈ r.observations) elig tc
          (fun r v hr => List.mem_append_left _ hr)
          (fun _ k' r n' e' hr => by
            show canonical k n ∈ ((consensusStep tc k' r n' e').1).observations
            rw [consensusStep_obs]
            exact hr)
          rest _ k ?_
        rw [turnStep_fst, ← hc]
        exact applyCandidate_obs_adds elig tc acc.1 k raw n hval
      · exact ih _ k raw n hrest hval

lemma processTurn_obs_mem (cfg : StageConfig) (s : Session)
    (cands : List (FieldKind × String)) (k : FieldKind) (raw n : String)
    (hmem : (k, raw) ∈ cands) (hval : outcomeValue (validate k raw) = some n) :
    canonical k n ∈ (((processTurn cfg s cands).1).fields k).observations := by
  rw [processTurn_session]
  exact foldl_obs_mem _ _ cands _ k raw n hmem hval

lemma jsOr_ne_none (x y : Option String) (h : y ≠ none) : jsOr x y ≠ none := by
  unfold jsOr
  split
  · rename_i ht
    cases x with
    | none => simp [jsTruthy] at ht
    | some s => simp
  · exact h

lemma jsOr_keeps (x y : Option String) (v : String) (hy : y = some v)
    (hx : x = none ∨ x = some "" ∨ x = some v) : jsOr x y = some v := by
  rcases hx with h | h | h
  · subst h
    simp [jsOr, jsTruthy, hy]
  · subst h
    simp [jsOr, jsTruthy, hy]
  · subst h
    unfold jsOr
    split
    · rfl
    · exact hy

lemma intelGet_merge (d p : Intelligence) (k : FieldKind) :
    intelGet (mergeIntelligence d p) k = jsOr (intelGet d k) (intelGet p k) := by
  cases k <;> rfl

/-- A session whose UPI field carries a committed value, used to exercise
the invariants at a concrete input. -/
def upiSession : Session :=
  Session.init.setField FieldKind.upi
    ⟨some "scammer@okaxis", ["scammer@okaxis"], false, false, 3⟩

/-- A session whose UPI field has reached CONSENSUS, used to exercise the
consensus lock at a concrete input. -/
def consensusSession : Session :=
  Session.init.setField FieldKind.upi
    ⟨some "scammer@okaxis", ["scammer@okaxis", "scammer@okaxis"], true, true, 3⟩

/-- C1.  Monotonic commit of field values: for every session and field
kind, a turn never removes or replaces a committed value (engine,
modelled from the spec); in the frontend the merge of a response into the
displayed intelligence never reverts a present field to null, and keeps
the previous value whenever the incoming field is null, empty, or equal
to it. -/
theorem monotonic_commit_c1 :
    (∀ (cfg : StageConfig) (s : Session) (cands : List (FieldKind × String))
        (k : FieldKind) (v : String),
        (s.fields k).value = some v →
        (((processTurn cfg s cands).1).fields k).value = some v)
    ∧ (∀ (d p : Intelligence) (k : FieldKind),
        intelGet p k ≠ none → intelGet (mergeIntelligence d p) k ≠ none)
    ∧ (∀ (d p : Intelligence) (k : FieldKind) (v : String),
        intelGet p k = some v →
        (intelGet d k = none ∨ intelGet d k = some "" ∨ intelGet d k = some v) →
        intelGet (mergeIntelligence d p) k = some v) := by
  refine ⟨?_, ?_, ?_⟩
  · intro cfg s cands k v h
    exact processTurn_fields_pres (fun r => r.value = some v) cfg s cands k
      (fun r w hr => hr)
      (fun tc k' r n e hr => consensusStep_keeps_value tc k' r n e v hr)
      h
  · intro d p k hp
    rw [intelGet_merge]
    exact jsOr_ne_none _ _ hp
  · intro d p k v hy hx
    rw [intelGet_merge]
    exact jsOr_keeps _ _ v hy hx

/-- Witness for C1 at a concrete input: a session with a committed UPI
value keeps it across a turn submitting a different UPI. -/
theorem monotonic_commit_c1_witness :
    (upiSession.fields FieldKind.upi).value = some "scammer@okaxis"
    ∧ (((processTurn defaultConfig upiSession
          [(FieldKind.upi, "other@okhdfc")]).1).fields FieldKind.upi).value
        = some "scammer@okaxis" :=
  ⟨by decide, monotonic_commit_c1.1 defaultConfig upiSession
    [(FieldKind.upi, "other@okhdfc")] FieldKind.upi "scammer@okaxis" (by decide)⟩

/-- C2.  Consensus lock: once a field record has reached tier CONSENSUS,
no subsequent turn changes its value or lowers the tier, and the turn
snapshot reports confidence exactly 1 (engine, modelled from the spec). -/
theorem consensus_lock_c2 :
    ∀ (cfg : StageConfig) (s : Session) (cands : List (FieldKind × String))
      (k : FieldKind) (v : String),
      (s.fields k).value = some v →
      tierOf (s.fields k) s.turn_count = ConfidenceTier.CONSENSUS →
      (((processTurn cfg s cands).1).fields k).value = some v
      ∧ tierOf (((processTurn cfg s cands).1).fields k)
          ((processTurn cfg s cands).1).turn_count = ConfidenceTier.CONSENSUS
      ∧ (processTurn cfg s cands).2.1.confidence = 1 := by
  intro cfg s cands k v hv ht
  have hc : (s.fields k).consensus = true := consensus_of_tierOf _ _ ht
  have hpres := processTurn_fields_pres
    (fun r => r.value = some v ∧ r.consensus = true) cfg s cands k
    (fun r w hr => hr)
    (fun tc k' r n e hr => ⟨consensusStep_keeps_value tc k' r n e v hr.1,
      consensusStep_keeps_consensus tc k' r n e v hr.1 hr.2⟩)
    ⟨hv, hc⟩
  refine ⟨hpres.1, tierOf_of_consensus _ _ hpres.2, ?_⟩
  rw [processTurn_snap]
  apply le_antisymm (confidence_le_one _)
  have h1 := score_le_confidence ((processTurn cfg s cands).1) k
  rw [scoreOf_consensus _ _ hpres.2] at h1
  exact h1

/-- Witness for C2 at a concrete input: a session whose UPI reached
CONSENSUS keeps value, tier and confidence 1 across a further turn. -/
theorem consensus_lock_c2_witness :
    tierOf (consensusSession.fields FieldKind.upi) consensusSession.turn_count
        = ConfidenceTier.CONSENSUS
    ∧ ((((processTurn defaultConfig consensusSession
          [(FieldKind.upi, "other@okhdfc")]).1).fields FieldKind.upi).value
          = some "scammer@okaxis"
        ∧ tierOf (((processTurn defaultConfig consensusSession
            [(FieldKind.upi, "other@okhdfc")]).1).fields FieldKind.upi)
            ((processTurn defaultConfig consensusSession
              [(FieldKind.upi, "other@okhdfc")]).1).turn_count
          = ConfidenceTier.CONSENSUS
        ∧ (processTurn defaultConfig consensusSession
            [(FieldKind.upi, "other@okhdfc")]).2.1.confidence = 1) :=
  ⟨by decide, consensus_lock_c2 defaultConfig consensusSession
    [(FieldKind.upi, "other@okhdfc")] FieldKind.upi "scammer@okaxis"
    (by decide) (by decide)⟩

/-- C3.  Stage monotonicity: the stage never decreases across a processed
turn (engine, modelled from the spec), and the frontend reset returns the
displayed stage to HOOK (stage 1, `resetConversation` in `App.tsx`). -/
theorem stage_monotone_c3 :
    (∀ (cfg : StageConfig) (s : Session) (cands : List (FieldKind × String)),
      s.stage ≤ ((processTurn cfg s cands).1).stage)
    ∧ (∀ st : AppState, (resetConversation st).currentStage = 1) := by
  constructor
  · intro cfg s cands
    rw [processTurn_stage]
    exact advanceStage_ge cfg s.stage (s.turn_count + 1)
  · intro st
    rfl

/-- C4.  Turn atomicity and graceful degradation: a failed frontend turn
leaves intelligence, confidence and stage untouched while still producing
a reply and a non-empty trace (`sendMessage` catch branch, `App.tsx`
lines 112 to 127); and every engine turn with at least one candidate
returns a non-empty trace, even when every candidate is rejected (engine,
modelled from the spec). -/
theorem turn_atomicity_c4 :
    (∀ (st : AppState) (msg : String),
      jsTrim msg ≠ "" → st.isLoading = false →
      (sendMessage st msg none).1.intelligence = st.intelligence
      ∧ (sendMessage st msg none).1.confidence = st.confidence
      ∧ (sendMessage st msg none).1.currentStage = st.currentStage
      ∧ (sendMessage st msg none).1.messages
          = st.messages ++ [⟨Role.scammer, msg⟩, ⟨Role.shanthi, fallbackReply⟩]
      ∧ (sendMessage st msg none).1.thoughts ≠ [])
    ∧ (∀ (cfg : StageConfig) (s : Session) (cands : List (FieldKind × String)),
        cands ≠ [] → (processTurn cfg s cands).2.2 ≠ []) := by
  constructor
  · intro st msg h1 h2
    have hguard : ¬(jsTrim msg = "" ∨ st.isLoading = true) := by
      push_neg
      exact ⟨h1, by simp [h2]⟩
    simp [sendMessage, if_neg hguard, List.append_assoc]
  · intro cfg s cands h
    exact processTurn_trace_ne cfg s cands h

/-- Witness for C4 at a concrete input: a failing turn on the initial
frontend state keeps the intelligence untouched, and an engine turn on a
rejected candidate still yields a non-empty trace. -/
theorem turn_atomicity_c4_witness :
    jsTrim "hello" ≠ ""
    ∧ (sendMessage initialAppState "hello" none).1.intelligence
        = initialAppState.intelligence
    ∧ (sendMessage initialAppState "hello" none).1.thoughts ≠ []
    ∧ (processTurn defaultConfig Session.init
        [(FieldKind.link, "htp:/bad-url")]).2.2 ≠ [] :=
  ⟨by decide,
    (turn_atomicity_c4.1 initialAppState "hello" (by decide) rfl).1,
    (turn_atomicity_c4.1 initialAppState "hello" (by decide) rfl).2.2.2.2,
    turn_atomicity_c4.2 defaultConfig Session.init
      [(FieldKind.link, "htp:/bad-url")] (by decide)⟩

/-- C5.  Stage-buffer property (engine, modelled from the spec): while the
session stage after the turn is still HOOK or FRICTION, a turn commits no
value and leaves the tier at NONE; every validated candidate's canonical
value is nevertheless appended to `observations`; and the spec's
scenario 1 holds: a valid UPI submitted on turn 1 at HOOK yields a
snapshot with a null UPI and confidence 0. -/
theorem stage_buffer_c5 :
    (∀ (cfg : StageConfig) (s : Session) (cands : List (FieldKind × String))
        (k : FieldKind),
        ((processTurn cfg s cands).1).stage ≤ 2 →
        (s.fields k).value = none → (s.fields k).consensus = false →
        (((processTurn cfg s cands).1).fields k).value = none
        ∧ tierOf (((processTurn cfg s cands).1).fields k)
            ((processTurn cfg s cands).1).turn_count = ConfidenceTier.NONE)
    ∧ (∀ (cfg : StageConfig) (s : Session) (cands : List (FieldKind × String))
        (k : FieldKind) (raw n : String),
        (k, raw) ∈ cands → outcomeValue (validate k raw) = some n →
        canonical k n ∈ (((processTurn cfg s cands).1).fields k).observations)
    ∧ (processTurn defaultConfig Session.init
        [(FieldKind.upi, "scammer@okaxis")]).2.1.upi = none
    ∧ (processTurn defaultConfig Session.init
        [(FieldKind.upi, "scammer@okaxis")]).2.1.confidence = 0 := by
  refine ⟨?_, ?_, by decide, by decide⟩
  · intro cfg s cands k hstage hv hc
    have helig : isExtractionEligible (advanceStage cfg s.stage (s.turn_count + 1))
        = false := by
      rw [processTurn_stage] at hstage
      unfold isExtractionEligible
      rw [decide_eq_false_iff_not]
      omega
    have hpres := processTurn_fields_pres_inelig
      (fun r => r.value = none ∧ r.consensus = false) cfg s cands k helig
      (fun r w hr => hr) ⟨hv, hc⟩
    exact ⟨hpres.1, tierOf_none _ _ hpres.1 hpres.2⟩
  · intro cfg s cands k raw n hmem hval
    exact processTurn_obs_mem cfg s cands k raw n hmem hval

/-- Witness for C5 at a concrete input: a valid UPI on turn 1 at HOOK is
not committed but its canonical value lands in the observations. -/
theorem stage_buffer_c5_witness :
    ((processTurn defaultConfig Session.init
        [(FieldKind.upi, "scammer@okaxis")]).1).stage ≤ 2
    ∧ (((processTurn defaultConfig Session.init
          [(FieldKind.upi, "scammer@okaxis")]).1).fields FieldKind.upi).value = none
    ∧ canonical FieldKind.upi "scammer@okaxis"
        ∈ (((processTurn defaultConfig Session.init
            [(FieldKind.upi, "scammer@okaxis")]).1).fields FieldKind.upi).observations :=
  ⟨by decide,
    (stage_buffer_c5.1 defaultConfig Session.init
      [(FieldKind.upi, "scammer@okaxis")] FieldKind.upi
      (by decide) rfl rfl).1,
    stage_buffer_c5.2.1 defaultConfig Session.init
      [(FieldKind.upi, "scammer@okaxis")] FieldKind.upi "scammer@okaxis"
      "scammer@okaxis" (by decide) (by decide)⟩

/-- C6.  Snapshot shape: every per-turn response exposes the four field
keys as the values of the session's four field records (string or null),
a confidence within [0, 1], a stage within 1 to 4, and a trace whose
entries all carry one of the four step kinds. -/
theorem snapshot_shape_c6 :
    ∀ (cfg : StageConfig) (s : Session) (cands : List (FieldKind × String)),
      1 ≤ s.stage → s.stage ≤ 4 →
      0 ≤ (processTurn cfg s cands).2.1.confidence
      ∧ (processTurn cfg s cands).2.1.confidence ≤ 1
      ∧ 1 ≤ (processTurn cfg s cands).2.1.stage
      ∧ (processTurn cfg s cands).2.1.stage ≤ 4
      ∧ (processTurn cfg s cands).2.1.upi
          = (((processTurn cfg s cands).1).fields FieldKind.upi).value
      ∧ (processTurn cfg s cands).2.1.bank_account
          = (((processTurn cfg s cands).1).fields FieldKind.bank_account).value
      ∧ (processTurn cfg s cands).2.1.ifsc
          = (((processTurn cfg s cands).1).fields FieldKind.ifsc).value
      ∧ (processTurn cfg s cands).2.1.link
          = (((processTurn cfg s cands).1).fields FieldKind.link).value
      ∧ ∀ e ∈ (processTurn cfg s cands).2.2,
          e.kind = StepKind.thought ∨ e.kind = StepKind.action
          ∨ e.kind = StepKind.tool_call ∨ e.kind = StepKind.validation := by
  intro cfg s cands h1 h4
  have hstage : (processTurn cfg s cands).2.1.stage
      = advanceStage cfg s.stage (s.turn_count + 1) := by
    rw [processTurn_snap]
    show ((processTurn cfg s cands).1).stage = _
    exact processTurn_stage cfg s cands
  refine ⟨?_, ?_, ?_, ?_, rfl, rfl, rfl, rfl, ?_⟩
  · rw [processTurn_snap]
    exact confidence_nonneg _
  · rw [processTurn_snap]
    exact confidence_le_one _
  · rw [hstage]
    exact advanceStage_ge_one cfg s.stage (s.turn_count + 1) h1
  · rw [hstage]
    exact advanceStage_le_four cfg s.stage (s.turn_count + 1) h4
  · intro e he
    rcases e with ⟨ek, et⟩
    cases ek <;> simp

/-- Witness for C6 at a concrete input: the first turn of a fresh session
satisfies the snapshot shape. -/
theorem snapshot_shape_c6_witness :
    1 ≤ Session.init.stage
    ∧ Session.init.stage ≤ 4
    ∧ (processTurn defaultConfig Session.init
        [(FieldKind.upi, "scammer@okaxis")]).2.1.confidence ≤ 1 :=
  ⟨by decide, by decide,
    (snapshot_shape_c6 defaultConfig Session.init
      [(FieldKind.upi, "scammer@okaxis")] (by decide) (by decide)).2.1⟩

lemma scoreOf_some (r : FieldRecord) (tc : Nat) (v : String) (hv : r.value = some v)
    (hc : r.consensus = false) :
    scoreOf r tc
      = min (3 / 4)
          (1 / 2 + (if r.patternExact then 15 / 100 else 0)
            + (if 4 < tc then 1 / 10 else 0)) := by
  unfold scoreOf
  rw [if_neg (by simp [hc]), hv]

/-- C7.  Confidence scoring (engine, modelled from the spec): the first
stage-eligible commit of a field sets its score to exactly 0.50; a second
independent observation of the same canonical value sets it to exactly
1.00; the PATTERN_CONFIRMED (+0.15) and EXTENDED_TURN (+0.10 once the
turn count exceeds 4) boosts combine additively with BASE, saturate at
0.75, and never reach 1 without a true consensus event. -/
theorem confidence_scoring_c7 :
    (∀ (tc : Nat) (k : FieldKind) (r : FieldRecord) (n : String),
        r.value = none →
        ((consensusStep tc k r n false).1).value = some n
        ∧ ((consensusStep tc k r n false).1).consensus = r.consensus
        ∧ (r.consensus = false → tc ≤ 4 →
            scoreOf ((consensusStep tc k r n false).1) tc = 1 / 2))
    ∧ (∀ (tc : Nat) (k : FieldKind) (r : FieldRecord) (n v : String) (e : Bool),
        r.value = some v → canonical k n = canonical k v → tc ≠ r.commitTurn →
        ((consensusStep tc k r n e).1).value = some v
        ∧ ((consensusStep tc k r n e).1).consensus = true
        ∧ scoreOf ((consensusStep tc k r n e).1) tc = 1)
    ∧ (∀ (r : FieldRecord) (tc : Nat),
        r.consensus = false → scoreOf r tc ≤ 3 / 4)
    ∧ (∀ (r : FieldRecord) (tc : Nat) (v : String),
        r.value = some v → r.consensus = false → r.patternExact = true →
        4 < tc → scoreOf r tc = 3 / 4)
    ∧ (∀ (r : FieldRecord) (tc : Nat),
        r.consensus = false → scoreOf r tc < 1) := by
  refine ⟨?_, ?_, ?_, ?_, ?_⟩
  · intro tc k r n hv
    rw [consensusStep_none tc k r n false hv]
    refine ⟨rfl, rfl, ?_⟩
    intro hcons htc
    have hlt : ¬(4 < tc) := by omega
    show scoreOf
      { value := some n, observations := r.observations, consensus := r.consensus,
        patternExact := false, commitTurn := tc } tc = 1 / 2
    rw [scoreOf_some
      { value := some n, observations := r.observations, consensus := r.consensus,
        patternExact := false, commitTurn := tc } tc n rfl hcons]
    norm_num [hlt, min_def]
  · intro tc k r n v e hv hcan htc
    rw [consensusStep_some tc k r n e v hv, if_pos hcan, if_neg htc]
    exact ⟨hv, rfl, scoreOf_consensus _ _ rfl⟩
  · intro r tc hc
    exact scoreOf_cap r tc hc
  · intro r tc v hv hc hp htc
    rw [scoreOf_some r tc v hv hc, if_pos hp, if_pos htc]
    norm_num [min_def]
  · intro r tc hc
    exact lt_of_le_of_lt (scoreOf_cap r tc hc) (by norm_num)

/-- Witness for C7 at concrete inputs: a commit on an absent field scores
exactly one half; a second independent matching observation scores
exactly one; and a committed record with both boosts scores exactly three
quarters. -/
theorem confidence_scoring_c7_witness :
    (FieldRecord.init.value = none
      ∧ scoreOf ((consensusStep 3 FieldKind.upi FieldRecord.init
          "scammer@okaxis" false).1) 3 = 1 / 2)
    ∧ ((consensusStep 5 FieldKind.upi
          ⟨some "scammer@okaxis", ["scammer@okaxis"], false, false, 3⟩
          "scammer@okaxis" true).1).consensus = true
    ∧ scoreOf ((consensusStep 5 FieldKind.upi
          ⟨some "scammer@okaxis", ["scammer@okaxis"], false, false, 3⟩
          "scammer@okaxis" true).1) 5 = 1
    ∧ scoreOf (⟨some "scammer@okaxis", [], false, true, 3⟩ : FieldRecord) 5 = 3 / 4 :=
  ⟨⟨rfl, (confidence_scoring_c7.1 3 FieldKind.upi FieldRecord.init
      "scammer@okaxis" rfl).2.2 rfl (by decide)⟩,
    (confidence_scoring_c7.2.1 5 FieldKind.upi
      ⟨some "scammer@okaxis", ["scammer@okaxis"], false, false, 3⟩
      "scammer@okaxis" "scammer@okaxis" true rfl rfl (by decide)).2.1,
    (confidence_scoring_c7.2.1 5 FieldKind.upi
      ⟨some "scammer@okaxis", ["scammer@okaxis"], false, false, 3⟩
      "scammer@okaxis" "scammer@okaxis" true rfl rfl (by decide)).2.2,
    confidence_scoring_c7.2.2.2.1
      ⟨some "scammer@okaxis", [], false, true, 3⟩ 5 "scammer@okaxis"
      rfl rfl rfl (by decide)⟩

/-- C8.  Validator idempotence (engine, modelled from the spec): an
accepted value re-validates to ACCEPTED with the identical value; a
soft-fail repaired value re-validates to ACCEPTED with itself; whenever a
repair passes the grammar, validating it accepts it unchanged; and no
repair ever introduces a character absent from the raw input. -/
theorem validator_fixed_point_c8 :
    (∀ (k : FieldKind) (x n : String),
        validate k x = Outcome.ACCEPTED n → validate k n = Outcome.ACCEPTED n)
    ∧ (∀ (k : FieldKind) (x r reason : String),
        validate k x = Outcome.SOFT_FAIL r reason →
        validate k r = Outcome.ACCEPTED r)
    ∧ (∀ (k : FieldKind) (x : String),
        grammarOf k (repairChars k x.data) = true →
        validate k (String.mk (repairChars k x.data))
          = Outcome.ACCEPTED (String.mk (repairChars k x.data)))
    ∧ (∀ (k : FieldKind) (x : String) (c : Char),
        c ∈ repairChars k x.data → c ∈ x.data) := by
  refine ⟨?_, ?_, ?_, ?_⟩
  · intro k x n h
    unfold validate at h
    by_cases hg : grammarOf k x.data = true
    · rw [if_pos hg] at h
      injection h with h1
      subst h1
      unfold validate
      rw [if_pos hg]
    · rw [if_neg hg] at h
      split_ifs at h
  · intro k x r reason h
    unfold validate at h
    by_cases hg : grammarOf k x.data = true
    · rw [if_pos hg] at h
      exact Outcome.noConfusion h
    · rw [if_neg hg] at h
      by_cases hr : grammarOf k (repairChars k x.data) = true
      · rw [if_pos hr] at h
        injection h with h1 h2
        subst h1
        unfold validate
        rw [if_pos (show grammarOf k (String.mk (repairChars k x.data)).data = true
          from hr)]
      · rw [if_neg hr] at h
        exact Outcome.noConfusion h
  · intro k x h
    unfold validate
    rw [if_pos (show grammarOf k (String.mk (repairChars k x.data)).data = true from h)]
  · intro k x c hc
    unfold repairChars at hc
    cases k <;> exact List.mem_of_mem_filter hc

/-- Witness for C8 at concrete inputs: the accepted UPI re-validates to
itself, the repaired bank account re-validates to ACCEPTED, and the
repaired characters all come from the raw input. -/
theorem validator_fixed_point_c8_witness :
    validate FieldKind.upi "scammer@okaxis" = Outcome.ACCEPTED "scammer@okaxis"
    ∧ validate FieldKind.bank_account "1234 5678 90"
        = Outcome.SOFT_FAIL "1234567890" (softFailReason FieldKind.bank_account)
    ∧ validate FieldKind.bank_account "1234567890" = Outcome.ACCEPTED "1234567890"
    ∧ ('1' ∈ repairChars FieldKind.bank_account "1234 5678 90".data
        ∧ '1' ∈ "1234 5678 90".data) :=
  ⟨by decide, by decide,
    validator_fixed_point_c8.2.1 FieldKind.bank_account "1234 5678 90" "1234567890"
      (softFailReason FieldKind.bank_account) (by decide),
    ⟨by decide, validator_fixed_point_c8.2.2.2 FieldKind.bank_account
      "1234 5678 90" '1' (by decide)⟩⟩

/-- The empty session store, used to exercise the reset no-op at a
concrete input. -/
def emptyStore : SessionStore :=
  fun _ => none

/-- C9.  Reset idempotence: resetting a session twice equals resetting it
once, resetting an absent session is a no-op rather than an error
(Session Store, modelled from the spec), and the frontend
`resetConversation` always restores the initial local state (empty
messages, all-null intelligence, empty thoughts, confidence 0,
stage 1). -/
theorem reset_idempotent_c9 :
    (∀ (store : SessionStore) (sid : String),
        resetSession (resetSession store sid) sid = resetSession store sid)
    ∧ (∀ (store : SessionStore) (sid : String),
        store sid = none → resetSession store sid = store)
    ∧ (∀ st : AppState,
        (resetConversation st).messages = []
        ∧ (resetConversation st).intelligence = ⟨none, none, none, none⟩
        ∧ (resetConversation st).thoughts = []
        ∧ (resetConversation st).confidence = 0
        ∧ (resetConversation st).currentStage = 1) := by
  refine ⟨?_, ?_, ?_⟩
  · intro store sid
    funext x
    unfold resetSession
    split_ifs <;> rfl
  · intro store sid h
    funext x
    unfold resetSession
    split_ifs with hx
    · rw [hx, h]
    · rfl
  · intro st
    exact ⟨rfl, rfl, rfl, rfl, rfl⟩

/-- Witness for C9 at a concrete input: resetting an absent session in
the empty store is a no-op. -/
theorem reset_idempotent_c9_witness :
    emptyStore "session_1" = none
    ∧ resetSession emptyStore "session_1" = emptyStore :=
  ⟨rfl, reset_idempotent_c9.2.1 emptyStore "session_1" rfl⟩

/-- C10.  Input guard is effect-free: `sendMessage` called with an empty
or whitespace-only message, or while a request is in flight, issues no
request and leaves the component state unchanged; the `handleSubmit`
guard of `ChatPanel.tsx` likewise refuses to submit. -/
theorem input_guard_c10 :
    (∀ (st : AppState) (msg : String) (resp : Option EngageResponse),
        jsTrim msg = "" ∨ st.isLoading = true →
        sendMessage st msg resp = (st, false))
    ∧ (∀ (input : String) (loading : Bool),
        jsTrim input = "" ∨ loading = true →
        handleSubmitSends input loading = false) := by
  constructor
  · intro st msg resp h
    unfold sendMessage
    rw [if_pos h]
  · intro input loading h
    unfold handleSubmitSends
    rcases h with h | h
    · simp [h]
    · simp [h]

/-- Witness for C10 at concrete inputs: a whitespace-only message leaves
the initial state untouched with no request, and a loading chat panel
refuses to submit. -/
theorem input_guard_c10_witness :
    jsTrim "   " = ""
    ∧ sendMessage initialAppState "   " none = (initialAppState, false)
    ∧ handleSubmitSends "hello" true = false :=
  ⟨by decide,
    input_guard_c10.1 initialAppState "   " none (Or.inl (by decide)),
    input_guard_c10.2 "hello" true (Or.inr rfl)⟩
